import Mathlib

/-!
Shallow embedding of the post-processing / decision layer of
`src/models/detectors/pointpillars.py` (PointPillars LiDAR detector):
the loss-weight preparer, the score conversion, the single-class and
multiclass NMS assembly paths, and the direction resolver.

Tensors are modelled as (nested) lists; float arithmetic is modelled
exactly over `ℚ` (and over a generic linear ordered field where the
constant π is involved); a raised Python exception is modelled as
`Except.error ()`.
-/

namespace PointPillarsSpec

/-! ## Loss-weight preparer (`prepare_loss_weights`, lines 778-813) -/

/-- Models `torch.clamp(x, min=1.0)`. -/
def clampMin1 (x : ℚ) : ℚ := max x 1

/-- Models `boolTensor.type(dtype).sum(1)` for one row: the number of `true`
entries, as a rational. -/
def boolRowSum (row : List Bool) : ℚ :=
  (row.map (fun b => if b then (1 : ℚ) else 0)).sum

/-- Elementwise division of a weight row by a per-row normalizer
(`weights /= normalizer` with a `[N,1]` broadcast). -/
def rowDiv (w : List ℚ) (d : ℚ) : List ℚ := w.map (fun x => x / d)

/-- Embeds `prepare_loss_weights` (lines 778-813).  `labels` is the
`[batch, num_anchors]` integer label tensor; the result is
`(cls_weights, reg_weights, cared)`.  The `raise ValueError` on an unknown
`loss_norm_type` is modelled as `Except.error ()`. -/
def prepare_loss_weights (labels : List (List ℤ))
    (pos_cls_weight neg_cls_weight : ℚ) (loss_norm_type : String) :
    Except Unit (List (List ℚ) × List (List ℚ) × List (List Bool)) :=
  let cared := labels.map (List.map (fun l => decide (0 ≤ l)))
  let positives := labels.map (List.map (fun l => decide (0 < l)))
  let negatives := labels.map (List.map (fun l => decide (l = 0)))
  -- `negatives_cls_weights` is computed and then never used in the source.
  let _negatives_cls_weights :=
    negatives.map (List.map (fun b => (if b then (1 : ℚ) else 0) * neg_cls_weight))
  let cls_weights := labels.map
    (List.map (fun l => neg_cls_weight + pos_cls_weight * (if 0 < l then (1 : ℚ) else 0)))
  let reg_weights := labels.map (List.map (fun l => if 0 < l then (1 : ℚ) else 0))
  if loss_norm_type = "NormByNumExamples" then
    let num_examples := cared.map (fun row => clampMin1 (boolRowSum row))
    let cls2 := List.zipWith rowDiv cls_weights num_examples
    let bbox_normalizer := positives.map boolRowSum
    let reg2 := List.zipWith rowDiv reg_weights (bbox_normalizer.map clampMin1)
    Except.ok (cls2, reg2, cared)
  else if loss_norm_type = "NormByNumPositives" then
    let pos_normalizer := positives.map boolRowSum
    let reg2 := List.zipWith rowDiv reg_weights (pos_normalizer.map clampMin1)
    let cls2 := List.zipWith rowDiv cls_weights (pos_normalizer.map clampMin1)
    Except.ok (cls2, reg2, cared)
  else if loss_norm_type = "NormByNumPosNeg" then
    let numPos := positives.map boolRowSum
    let numNeg := negatives.map boolRowSum
    let cls_normalizer := List.zipWith
      (fun (pn : List Bool × List Bool) (nn : ℚ × ℚ) =>
        List.zipWith
          (fun p n => clampMin1 ((if p then nn.1 else 0) + (if n then nn.2 else 0)))
          pn.1 pn.2)
      (positives.zip negatives) (numPos.zip numNeg)
    let reg2 := List.zipWith rowDiv reg_weights (numPos.map clampMin1)
    let cls2 := List.zipWith (List.zipWith (· / ·)) cls_weights cls_normalizer
    Except.ok (cls2, reg2, cared)
  else
    Except.error ()

/-! ## Multiclass NMS assembly loops

`box_torch_ops.multiclass_nms` (outside `src/`) returns one entry per class:
`None`, or the tensor of surviving anchor indices for that class.  The two
per-class assembly loops in `PointPillars.predict` (lines 299-320) and
`PointPillars_trt.predict` (lines 680-702) consume that list.  Boxes are an
arbitrary type `β`; indexing a tensor by an index tensor is `gatherIdx`. -/

/-- Models `tensor[idxs]` (row gather by an index tensor). -/
def gatherIdx {β : Type} (xs : List β) (idxs : List ℕ) : List β :=
  idxs.filterMap (fun k => xs.get? k)

/-- Models `total_scores[selected, i]`: gather rows by `selected`, column `i`. -/
def gatherScoreCol (scores : List (List ℚ)) (idxs : List ℕ) (i : ℕ) : List ℚ :=
  idxs.filterMap (fun k => (scores.get? k).bind (fun row => row.get? i))

/-- Models `torch.cat(ts, dim=0)` on a Python list of tensors: raises on an
empty list, concatenates otherwise. -/
def torchCat {β : Type} (ts : List (List β)) : Except Unit (List β) :=
  match ts with
  | [] => Except.error ()
  | _ :: _ => Except.ok ts.flatten

/-- Continuation of the `PointPillars.predict` per-class loop after the
accumulators have been reassigned from Python lists to tensors by
`torch.cat`: a later class with survivors calls `.append` on a tensor,
which raises; the `else` clause attached to the `for` loop still resets
everything to `None` when the loop finishes. -/
def mcLoopATensor {β : Type} :
    List (Option (List ℕ)) → Except Unit (Option (List β × List ℤ × List ℚ × List ℕ))
  | [] => Except.ok none
  | none :: rest => mcLoopATensor rest
  | some _ :: _ => Except.error ()

/-- Embeds the `PointPillars.predict` multiclass assembly loop
(lines 299-320) with its accumulators `sb = selected_boxes`,
`sl = selected_labels`, `ss = selected_scores`, `sd = selected_dir_labels`.
The source appends only to `selected_boxes` and `selected_labels`; the
`torch.cat` block sits inside the per-class `if`, and the trailing `else`
belongs to the `for` loop (a Python for-else), so it runs whenever the loop
finishes without `break`. -/
def mcLoopA {β : Type} (boxes : List β) (use_dir : Bool) :
    List (Option (List ℕ)) → ℕ → List (List β) → List (List ℤ) →
    List (List ℚ) → List (List ℕ) →
    Except Unit (Option (List β × List ℤ × List ℚ × List ℕ))
  | [], _, _, _, _, _ => Except.ok none
  | none :: rest, i, sb, sl, ss, sd => mcLoopA boxes use_dir rest (i + 1) sb sl ss sd
  | some idxs :: rest, i, sb, sl, ss, sd =>
    let sb1 := sb ++ [gatherIdx boxes idxs]
    let sl1 := sl ++ [List.replicate idxs.length (i : ℤ)]
    if sb1.length > 0 then do
      let _ ← torchCat sb1
      let _ ← torchCat sl1
      let _ ← torchCat ss
      if use_dir then do
        let _ ← torchCat sd
        mcLoopATensor rest
      else
        mcLoopATensor rest
    else
      mcLoopA boxes use_dir rest (i + 1) sb1 sl1 ss sd

/-- The `PointPillars.predict` multiclass assembly (lines 299-320), started
on the empty accumulators. -/
def mcAssembleA {β : Type} (boxes : List β) (use_dir : Bool)
    (selected_per_class : List (Option (List ℕ))) :
    Except Unit (Option (List β × List ℤ × List ℚ × List ℕ)) :=
  mcLoopA boxes use_dir selected_per_class 0 [] [] [] []

/-- Embeds the `PointPillars_trt.predict` multiclass assembly loop body
(lines 682-690): every surviving class appends its boxes, its class label
tensor, its direction labels (when enabled) and its score column. -/
def mcLoopB {β : Type} (boxes : List β) (dir_labels : List ℕ)
    (total_scores : List (List ℚ)) (use_dir : Bool) :
    List (Option (List ℕ)) → ℕ → List (List β) → List (List ℤ) →
    List (List ℚ) → List (List ℕ) →
    List (List β) × List (List ℤ) × List (List ℚ) × List (List ℕ)
  | [], _, sb, sl, ss, sd => (sb, sl, ss, sd)
  | none :: rest, i, sb, sl, ss, sd =>
    mcLoopB boxes dir_labels total_scores use_dir rest (i + 1) sb sl ss sd
  | some idxs :: rest, i, sb, sl, ss, sd =>
    mcLoopB boxes dir_labels total_scores use_dir rest (i + 1)
      (sb ++ [gatherIdx boxes idxs])
      (sl ++ [List.replicate idxs.length (i : ℤ)])
      (ss ++ [gatherScoreCol total_scores idxs i])
      (if use_dir then sd ++ [gatherIdx dir_labels idxs] else sd)

/-- The `PointPillars_trt.predict` multiclass assembly (lines 680-702):
run the loop, then concatenate if anything survived, else signal
"no detections" (`none`, the all-None fields). -/
def mcAssembleB {β : Type} (boxes : List β) (dir_labels : List ℕ)
    (total_scores : List (List ℚ)) (use_dir : Bool)
    (selected_per_class : List (Option (List ℕ))) :
    Option (List β × List ℤ × List ℚ × List ℕ) :=
  match mcLoopB boxes dir_labels total_scores use_dir selected_per_class 0 [] [] [] [] with
  | (sb, sl, ss, sd) =>
    if sb.length > 0 then
      some (sb.flatten, sl.flatten, ss.flatten, if use_dir then sd.flatten else [])
    else
      none

/-! ## Score conversion (`predict`, lines 258-267)

`torch.sigmoid` and `F.softmax` are library primitives outside the
repository; they enter the embedding as function parameters `sg`
(elementwise sigmoid) and `sm` (row softmax). -/

/-- Embeds the conversion of class logits to scores (lines 258-267).
When background is encoded as all-zeros, the source asserts
`use_sigmoid_score is True` (modelled as `Except.error ()` when violated)
and applies sigmoid to every channel; otherwise it applies sigmoid or
softmax and slices off the background column `[..., 1:]`. -/
def totalScoresOf (sg : ℚ → ℚ) (sm : List ℚ → List ℚ)
    (encode_background_as_zeros use_sigmoid_score : Bool)
    (cls_preds : List (List ℚ)) : Except Unit (List (List ℚ)) :=
  if encode_background_as_zeros then
    if use_sigmoid_score then
      Except.ok (cls_preds.map (List.map sg))
    else
      Except.error ()
  else
    if use_sigmoid_score then
      Except.ok (cls_preds.map (fun row => (row.map sg).drop 1))
    else
      Except.ok (cls_preds.map (fun row => (sm row).drop 1))

/-! ## Direction resolver (`predict`, lines 372-379 and 756-762) -/

/-- Models line 374: `opp_labels = (box_preds[..., -1] > 0) ^ dir_labels.bool()`
for one box (the trt variant `(dir_labels.byte() > 0)` is the same test). -/
def oppLabel (yaw : ℚ) (dir_label : ℕ) : Bool :=
  (decide (0 < yaw)).xor (dir_label != 0)

/-- Models lines 375-379: `box_preds[..., -1] += torch.where(opp_labels, π, 0)`
for one box.  The constant π lives in a generic linear ordered field `K`
(instantiated with `ℝ` and `Real.pi` in the theorems). -/
def dirYawCorrect {K : Type} [LinearOrderedField K] (piK : K)
    (yaw : ℚ) (dir_label : ℕ) : K :=
  (yaw : K) + (if oppLabel yaw dir_label then piK else 0)

/-- Applies the yaw correction to the last column of a 7-entry box row. -/
def boxDirCorrect {K : Type} [LinearOrderedField K] (piK : K)
    (b : List ℚ) (dir_label : ℕ) : List K :=
  if b.isEmpty then []
  else (b.dropLast.map (fun q => (q : K))) ++ [dirYawCorrect piK (b.getLastD 0) dir_label]

/-! ## Single-class NMS path and final packaging (`predict`, lines 321-400) -/

/-- Models `tensor.masked_select(mask)` / boolean-mask row indexing. -/
def maskSelect {β : Type} (xs : List β) (keep : List Bool) : List β :=
  ((xs.zip keep).filter (fun p => p.2)).map (fun p => p.1)

/-- The per-sample prediction dictionary built at lines 384-400.  `bbox` and
`box3d_camera` are set to `None` in both branches of the source. -/
structure PredDict (β : Type) where
  bbox : Option Unit
  box3d_camera : Option Unit
  box3d_lidar : Option (List β)
  scores : Option (List ℚ)
  label_preds : Option (List ℕ)
  image_idx : ℕ

/-- The explicit all-None "no detections" dictionary (lines 392-400). -/
def emptyPredictions {β : Type} (img_idx : ℕ) : PredDict β :=
  { bbox := none, box3d_camera := none, box3d_lidar := none,
    scores := none, label_preds := none, image_idx := img_idx }

/-- Embeds the single-class (non-multiclass) selection, lines 321-365,
starting from the per-anchor top scores and labels.  The bird's-eye-view
projection and the NMS kernel (`libs.ops.box_torch_ops`, outside `src/`)
are a single opaque strategy `nms` returning the selected indices, or
`none` when there are no survivors (spec 4.3: the engine returns `None` on
an empty candidate set and callers treat it as "no detections"). -/
def singleClassSelect (boxes : List (List ℚ)) (top_scores : List ℚ)
    (top_labels dir_labels : List ℕ) (use_dir : Bool) (score_thresh : ℚ)
    (nms : List (List ℚ) → List ℚ → Option (List ℕ)) :
    Option (List (List ℚ) × List ℕ × List ℚ × Option (List ℕ)) :=
  let keep := top_scores.map (fun s => decide (score_thresh ≤ s))
  let ts := if 0 < score_thresh then maskSelect top_scores keep else top_scores
  if ts.length ≠ 0 then
    let bp := if 0 < score_thresh then maskSelect boxes keep else boxes
    let dl := if 0 < score_thresh then
        (if use_dir then maskSelect dir_labels keep else dir_labels)
      else dir_labels
    let tl := if 0 < score_thresh then maskSelect top_labels keep else top_labels
    match nms bp ts with
    | some sel =>
      some (gatherIdx bp sel, gatherIdx tl sel, gatherIdx ts sel,
        if use_dir then some (gatherIdx dl sel) else none)
    | none => none
  else
    none

/-- Embeds the final packaging, lines 368-400: when boxes were selected,
apply the direction resolver (when enabled) and fill the dictionary;
otherwise build the explicit all-None dictionary. -/
def packageSample {K : Type} [LinearOrderedField K] (piK : K) (use_dir : Bool)
    (sel : Option (List (List ℚ) × List ℕ × List ℚ × Option (List ℕ)))
    (img_idx : ℕ) : PredDict (List K) :=
  match sel with
  | some (bp, tl, ts, dl) =>
    let final_boxes :=
      if use_dir then List.zipWith (boxDirCorrect piK) bp (dl.getD [])
      else bp.map (fun b => b.map (fun q => (q : K)))
    { bbox := none, box3d_camera := none, box3d_lidar := some final_boxes,
      scores := some ts, label_preds := some tl, image_idx := img_idx }
  | none => emptyPredictions img_idx

/-- The per-sample single-class prediction path: selection then packaging. -/
def singleClassPredict {K : Type} [LinearOrderedField K] (piK : K)
    (boxes : List (List ℚ)) (top_scores : List ℚ)
    (top_labels dir_labels : List ℕ) (use_dir : Bool) (score_thresh : ℚ)
    (nms : List (List ℚ) → List ℚ → Option (List ℕ)) (img_idx : ℕ) :
    PredDict (List K) :=
  packageSample piK use_dir
    (singleClassSelect boxes top_scores top_labels dir_labels use_dir score_thresh nms)
    img_idx

/-! ## Helper lemmas -/

theorem zipWith_map_same {A B C D : Type} (f : B → C → D) (g : A → B) (h : A → C) :
    ∀ l : List A, List.zipWith f (l.map g) (l.map h) = l.map (fun x => f (g x) (h x)) := by
  intro l
  induction l with
  | nil => rfl
  | cons a t ih => simp [ih]

theorem boolRowSum_map {A : Type} (p : A → Bool) :
    ∀ row : List A, boolRowSum (row.map p) = ((row.countP p : ℕ) : ℚ) := by
  intro row
  induction row with
  | nil => simp [boolRowSum]
  | cons a t ih =>
    simp only [boolRowSum, List.map_cons, List.map_map, List.sum_cons,
      List.countP_cons] at ih ⊢
    cases h : p a
    · simp [h, ih]
    · simp [h, ih]
      ring

theorem map_drop_one {B C : Type} (f : B → C) (l : List B) :
    (l.map f).drop 1 = (l.drop 1).map f := by
  cases l <;> rfl

/-- Closed form of `prepare_loss_weights` under the `NormByNumPositives`
policy: every weight is the base weight divided by the clamped per-row
count of positive anchors. -/
theorem prepare_nbp_closed (labels : List (List ℤ)) (pcw ncw : ℚ) :
    prepare_loss_weights labels pcw ncw "NormByNumPositives" =
      Except.ok
        (labels.map (fun row => row.map (fun l =>
            (ncw + pcw * (if 0 < l then (1 : ℚ) else 0)) /
              clampMin1 ((row.countP (fun l => decide (0 < l)) : ℕ) : ℚ))),
         labels.map (fun row => row.map (fun l =>
            (if 0 < l then (1 : ℚ) else 0) /
              clampMin1 ((row.countP (fun l => decide (0 < l)) : ℕ) : ℚ))),
         labels.map (List.map (fun l => decide (0 ≤ l)))) := by
  simp only [prepare_loss_weights, String.reduceEq, if_false, if_true,
    List.map_map, zipWith_map_same, rowDiv, boolRowSum_map, Function.comp_def]

theorem torchCat_push {B : Type} (sb : List (List B)) (x : List B) :
    torchCat (sb ++ [x]) = Except.ok ((sb ++ [x]).flatten) := by
  cases sb <;> rfl

theorem mcLoopA_all_none {B : Type} (boxes : List B) (ud : Bool) :
    ∀ spc : List (Option (List ℕ)), (∀ s ∈ spc, s = none) →
      ∀ i sb sl ss sd, mcLoopA boxes ud spc i sb sl ss sd = Except.ok none := by
  intro spc
  induction spc with
  | nil => intro _ i sb sl ss sd; rfl
  | cons hd tl ih =>
    intro h i sb sl ss sd
    have hhd : hd = none := h hd (List.mem_cons_self hd tl)
    subst hhd
    simp only [mcLoopA]
    exact ih (fun s hs => h s (List.mem_cons_of_mem _ hs)) (i + 1) sb sl ss sd

theorem mcLoopA_error_of_some {B : Type} (boxes : List B) (ud : Bool) :
    ∀ spc : List (Option (List ℕ)), (∃ s ∈ spc, s ≠ none) →
      ∀ i sb sl sd, mcLoopA boxes ud spc i sb sl [] sd = Except.error () := by
  intro spc
  induction spc with
  | nil => rintro ⟨s, hs, _⟩; cases hs
  | cons hd tl ih =>
    rintro ⟨s, hs, hsne⟩ i sb sl sd
    cases hd with
    | none =>
      simp only [mcLoopA]
      apply ih ⟨s, ?_, hsne⟩
      rcases List.mem_cons.mp hs with h | h
      · exact absurd (h ▸ rfl) hsne
      · exact h
    | some idxs =>
      simp only [mcLoopA]
      rw [if_pos (by simp)]
      rw [torchCat_push, torchCat_push]
      simp [torchCat, Bind.bind, Except.bind]

theorem mcLoopB_all_none {B : Type} (boxes : List B) (dl : List ℕ)
    (ts : List (List ℚ)) (ud : Bool) :
    ∀ spc : List (Option (List ℕ)), (∀ s ∈ spc, s = none) →
      ∀ i sb sl ss sd, mcLoopB boxes dl ts ud spc i sb sl ss sd = (sb, sl, ss, sd) := by
  intro spc
  induction spc with
  | nil => intro _ i sb sl ss sd; rfl
  | cons hd tl ih =>
    intro h i sb sl ss sd
    have hhd : hd = none := h hd (List.mem_cons_self hd tl)
    subst hhd
    simp only [mcLoopB]
    exact ih (fun s hs => h s (List.mem_cons_of_mem _ hs)) (i + 1) sb sl ss sd

theorem maskSelect_eq_nil {B : Type} (p : B → Bool) :
    ∀ xs : List B, (∀ x ∈ xs, p x = false) → maskSelect xs (xs.map p) = [] := by
  intro xs
  induction xs with
  | nil => intro _; rfl
  | cons a t ih =>
    intro h
    have ha : p a = false := h a (List.mem_cons_self a t)
    have ht := ih (fun x hx => h x (List.mem_cons_of_mem a hx))
    simpa [maskSelect, ha] using ht

theorem singleClassSelect_none (boxes : List (List ℚ)) (top_scores : List ℚ)
    (top_labels dir_labels : List ℕ) (use_dir : Bool) (score_thresh : ℚ)
    (nms : List (List ℚ) → List ℚ → Option (List ℕ))
    (h : (0 < score_thresh ∧ ∀ s ∈ top_scores, s < score_thresh) ∨
         (∀ b ts, nms b ts = none)) :
    singleClassSelect boxes top_scores top_labels dir_labels use_dir
        score_thresh nms = none := by
  unfold singleClassSelect
  rcases h with ⟨hpos, hall⟩ | hn
  · have hmask : maskSelect top_scores
        (top_scores.map (fun s => decide (score_thresh ≤ s))) = [] := by
      apply maskSelect_eq_nil
      intro x hx
      simp [not_le.mpr (hall x hx)]
    simp [hpos, hmask]
  · simp only [hn]
    split <;> simp

/-! ## Claims -/

/-- Claim C1 (code_bug evaluation): the multiclass assembly loop of
`PointPillars.predict` does not concatenate survivors.  On a sample where
class 0 has one NMS survivor it raises (`torch.cat` of the never-populated
`selected_scores` list), while with no survivors it returns the all-None
result; the `PointPillars_trt.predict` loop on the same input returns the
concatenated survivors, as the spec describes. -/
theorem multiclassAssemblyA_drops_survivors :
    mcAssembleA [(7 : ℕ)] false [some [0]] = Except.error ()
    ∧ mcAssembleA [(7 : ℕ)] false [none] = Except.ok none
    ∧ mcAssembleB [(7 : ℕ)] [] [[(1 : ℚ)]] false [some [0]] =
        some ([7], [0], [1], []) :=
  ⟨rfl, rfl, rfl⟩

/-- Claim C2 (counterexample): on labels `[-1, 0, 1]` with unit weights and
`NormByNumPositives`, `prepare_loss_weights` does not return
`cls_weights = [0, 1, 2]`: the code adds the scalar `neg_cls_weight` to
every anchor (ignored anchors included), giving `[1, 1, 2]`. -/
theorem lossWeights_scenario_cex :
    prepare_loss_weights [[-1, 0, 1]] 1 1 "NormByNumPositives" ≠
      Except.ok ([[0, 1, 2]], [[0, 0, 1]], [[false, true, true]]) := by
  intro h
  rw [prepare_nbp_closed] at h
  have h2 := Except.ok.inj h
  norm_num [clampMin1] at h2

/-- Claim C2 (amended): the same scenario returns `cared = [F, T, T]`,
`reg_weights = [0, 0, 1]` and `cls_weights = [1, 1, 2]` (the ignored
anchor keeps the scalar `neg_cls_weight`). -/
theorem lossWeights_scenario_amended :
    prepare_loss_weights [[-1, 0, 1]] 1 1 "NormByNumPositives" =
      Except.ok ([[1, 1, 2]], [[0, 0, 1]], [[false, true, true]]) := by
  rw [prepare_nbp_closed]
  norm_num [clampMin1]

/-- Claim C3: for every integer label tensor, under `NormByNumPositives`,
`prepare_loss_weights` returns `cared = (labels >= 0)` and the base weights
`cls = neg + pos * 1[l > 0]`, `reg = 1[l > 0]`, each divided per batch row
by the count of positive anchors clamped to at least 1. -/
theorem lossWeights_normByNumPositives (labels : List (List ℤ)) (pcw ncw : ℚ) :
    prepare_loss_weights labels pcw ncw "NormByNumPositives" =
      Except.ok
        (labels.map (fun row => row.map (fun l =>
            (ncw + pcw * (if 0 < l then (1 : ℚ) else 0)) /
              clampMin1 ((row.countP (fun l => decide (0 < l)) : ℕ) : ℚ))),
         labels.map (fun row => row.map (fun l =>
            (if 0 < l then (1 : ℚ) else 0) /
              clampMin1 ((row.countP (fun l => decide (0 < l)) : ℕ) : ℚ))),
         labels.map (List.map (fun l => decide (0 ≤ l)))) :=
  prepare_nbp_closed labels pcw ncw

/-- Claim C4: at inference with the direction classifier enabled, π is added
to a surviving box's decoded yaw exactly when `(yaw > 0)` XOR
`(direction class = 1)`, and the yaw is unchanged when they agree
(direction classes come from a two-way argmax, hence `d ≤ 1`). -/
theorem dirResolver_xor (yaw : ℚ) (d : ℕ) (hd : d ≤ 1) :
    (dirYawCorrect Real.pi yaw d = (yaw : ℝ) + Real.pi ↔
      ((decide (0 < yaw)).xor (decide (d = 1))) = true)
    ∧ (((decide (0 < yaw)).xor (decide (d = 1))) = false →
      dirYawCorrect Real.pi yaw d = (yaw : ℝ)) := by
  have hd01 : d = 0 ∨ d = 1 := by omega
  unfold dirYawCorrect oppLabel
  rcases hd01 with h | h <;> subst h <;> cases hy : decide (0 < yaw) <;>
    simp [hy, self_eq_add_right, Real.pi_ne_zero]

/-- Witness for C4 at yaw `-1`, direction class `1` (XOR holds, π added). -/
theorem dirResolver_xor_witness :
    dirYawCorrect Real.pi (-1 : ℚ) 1 = ((-1 : ℚ) : ℝ) + Real.pi :=
  (dirResolver_xor (-1) 1 (by decide)).1.mpr (by decide)

/-- Claim C5 (counterexample): with decoded yaw `0.1` and direction class
`1`, the resolver does not output `0.1 + π`: class 1 means the positive
hemisphere, so the XOR with `yaw > 0` is false. -/
theorem dirResolver_scenario_cex :
    dirYawCorrect Real.pi (1 / 10 : ℚ) 1 ≠ ((1 / 10 : ℚ) : ℝ) + Real.pi := by
  have h1 : (0 : ℚ) < 1 / 10 := by norm_num
  have h : oppLabel (1 / 10 : ℚ) 1 = false := by simp [oppLabel, h1]
  unfold dirYawCorrect
  rw [h]
  simp [self_eq_add_right, Real.pi_ne_zero]

/-- Claim C5 (amended): with decoded yaw `0.1` and direction class `1`, the
resolver leaves the yaw unchanged at `0.1`. -/
theorem dirResolver_scenario_amended :
    dirYawCorrect Real.pi (1 / 10 : ℚ) 1 = ((1 / 10 : ℚ) : ℝ) := by
  have h1 : (0 : ℚ) < 1 / 10 := by norm_num
  have h : oppLabel (1 / 10 : ℚ) 1 = false := by simp [oppLabel, h1]
  unfold dirYawCorrect
  rw [h]
  simp

/-- Claim C6: under `NormByNumPositives`, a batch row with no positive
label gets identically zero `reg_weights`, and the positive-count
normalizer is clamped to at least 1 (strictly positive) before dividing. -/
theorem lossWeights_zeroPositives_regZero (labels : List (List ℤ))
    (pcw ncw : ℚ) (j : ℕ) (row : List ℤ) (hrow : labels[j]? = some row)
    (hneg : ∀ l ∈ row, l ≤ 0) :
    ∃ cls reg cared,
      prepare_loss_weights labels pcw ncw "NormByNumPositives" =
          Except.ok (cls, reg, cared)
        ∧ reg[j]? = some (List.replicate row.length 0)
        ∧ (0 : ℚ) < clampMin1 ((row.countP (fun l => decide (0 < l)) : ℕ) : ℚ) := by
  refine ⟨_, _, _, prepare_nbp_closed labels pcw ncw, ?_, ?_⟩
  · rw [List.getElem?_map, hrow, Option.map_some']
    have hz : row.map (fun l =>
        (if 0 < l then (1 : ℚ) else 0) /
          clampMin1 ((row.countP (fun l => decide (0 < l)) : ℕ) : ℚ)) =
        row.map (fun _ => (0 : ℚ)) := by
      apply List.map_congr_left
      intro l hl
      rw [if_neg (not_lt.mpr (hneg l hl))]
      simp
    rw [hz, List.map_const']
  · exact lt_of_lt_of_le one_pos (le_max_right _ _)

/-- Witness for C6 on the batch `[[-1, 0]]`, row 0. -/
theorem lossWeights_zeroPositives_regZero_witness :
    ∃ cls reg cared,
      prepare_loss_weights [[-1, 0]] 1 1 "NormByNumPositives" =
          Except.ok (cls, reg, cared)
        ∧ reg[0]? = some (List.replicate ([(-1 : ℤ), 0].length) 0)
        ∧ (0 : ℚ) <
            clampMin1 (([(-1 : ℤ), 0].countP (fun l => decide (0 < l)) : ℕ) : ℚ) :=
  lossWeights_zeroPositives_regZero [[-1, 0]] 1 1 0 [-1, 0] rfl (by decide)

/-- Claim C7: on the single-class NMS path, a sample where no anchor
reaches the score threshold, or where the NMS engine reports no survivors,
is packaged as the explicit all-None dictionary — the path is a total
function, it never raises. -/
theorem singleClassPredict_empty {K : Type} [LinearOrderedField K] (piK : K)
    (boxes : List (List ℚ)) (top_scores : List ℚ)
    (top_labels dir_labels : List ℕ) (use_dir : Bool) (score_thresh : ℚ)
    (nms : List (List ℚ) → List ℚ → Option (List ℕ)) (img_idx : ℕ)
    (h : (0 < score_thresh ∧ ∀ s ∈ top_scores, s < score_thresh) ∨
         (∀ b ts, nms b ts = none)) :
    singleClassPredict piK boxes top_scores top_labels dir_labels use_dir
        score_thresh nms img_idx = emptyPredictions img_idx := by
  unfold singleClassPredict
  rw [singleClassSelect_none boxes top_scores top_labels dir_labels use_dir
    score_thresh nms h]
  rfl

/-- Witness for C7 with a one-anchor sample and an NMS strategy reporting
no survivors. -/
theorem singleClassPredict_empty_witness :
    singleClassPredict (0 : ℚ) [[1]] [1 / 2] [0] [0] false 1
        (fun _ _ => none) 3 = emptyPredictions 3 :=
  singleClassPredict_empty 0 [[1]] [1 / 2] [0] [0] false 1
    (fun _ _ => none) 3 (Or.inr (fun _ _ => rfl))

/-- Claim C8: with background encoded as all-zeros, softmax scoring is a
precondition violation (assertion error) and sigmoid is applied to every
class channel; with a background channel, scores are the sigmoid of the
non-background slice, or the softmax of the full row restricted to the
non-background slice. -/
theorem totalScores_flag_cases (sg : ℚ → ℚ) (sm : List ℚ → List ℚ)
    (cls_preds : List (List ℚ)) :
    totalScoresOf sg sm true false cls_preds = Except.error ()
    ∧ totalScoresOf sg sm true true cls_preds =
        Except.ok (cls_preds.map (List.map sg))
    ∧ totalScoresOf sg sm false true cls_preds =
        Except.ok (cls_preds.map (fun row => (row.drop 1).map sg))
    ∧ totalScoresOf sg sm false false cls_preds =
        Except.ok (cls_preds.map (fun row => (sm row).drop 1)) := by
  refine ⟨rfl, rfl, ?_, rfl⟩
  simp [totalScoresOf, map_drop_one]

/-- Claim C9: any `loss_norm_type` other than the three known policy names
makes `prepare_loss_weights` raise immediately. -/
theorem lossWeights_unknown_norm_error (labels : List (List ℤ))
    (pcw ncw : ℚ) (name : String) (h1 : name ≠ "NormByNumExamples")
    (h2 : name ≠ "NormByNumPositives") (h3 : name ≠ "NormByNumPosNeg") :
    prepare_loss_weights labels pcw ncw name = Except.error () := by
  simp [prepare_loss_weights, h1, h2, h3]

/-- Witness for C9 with the unknown policy name `"Bogus"`. -/
theorem lossWeights_unknown_norm_error_witness :
    prepare_loss_weights [[0]] 1 1 "Bogus" = Except.error () :=
  lossWeights_unknown_norm_error [[0]] 1 1 "Bogus" (by decide) (by decide)
    (by decide)

/-- Claim C10 (counterexample): on identical inputs where class 1 has one
survivor, the `PointPillars.predict` loop raises while the
`PointPillars_trt.predict` loop returns the survivors, so the two per-class
assembly loops are not equivalent. -/
theorem assemblyLoops_equiv_cex :
    mcAssembleA [(5 : ℕ)] false [none, some [0]] ≠
      Except.ok (mcAssembleB [(5 : ℕ)] [] [[(1 : ℚ), 2]] false
        [none, some [0]]) := by
  intro h
  exact Except.noConfusion h

/-- Claim C10 (amended): the two per-class assembly loops agree exactly on
the inputs where no class has any survivor; there both produce the
"no detections" result. -/
theorem assemblyLoops_agree_iff {B : Type} (boxes : List B)
    (dir_labels : List ℕ) (total_scores : List (List ℚ)) (use_dir : Bool)
    (spc : List (Option (List ℕ))) :
    mcAssembleA boxes use_dir spc =
        Except.ok (mcAssembleB boxes dir_labels total_scores use_dir spc)
      ↔ ∀ s ∈ spc, s = none := by
  constructor
  · intro hagree s hs
    by_contra hne
    have herr := mcLoopA_error_of_some boxes use_dir spc ⟨s, hs, hne⟩ 0 [] [] []
    unfold mcAssembleA at hagree
    rw [herr] at hagree
    exact Except.noConfusion hagree
  · intro h
    have hA := mcLoopA_all_none boxes use_dir spc h 0 [] [] [] []
    have hB := mcLoopB_all_none boxes dir_labels total_scores use_dir spc h
      0 [] [] [] []
    unfold mcAssembleA mcAssembleB
    rw [hA, hB]
    rfl

/-- Witness for the amended C10 on a survivor-free input. -/
theorem assemblyLoops_agree_iff_witness :
    mcAssembleA [(3 : ℕ)] true [none] =
      Except.ok (mcAssembleB [(3 : ℕ)] [] [[(1 : ℚ)]] true [none]) :=
  (assemblyLoops_agree_iff [(3 : ℕ)] [] [[(1 : ℚ)]] true [none]).mpr
    (by simp)

end PointPillarsSpec
